import Mathlib

/-!
Verification of the Lyfora migration runner (`run_migration.py`) and of the
Migration Application Engine its specification describes.

Part 1 shallowly embeds the actual script: the environment is a partial map
from variable names to values, the filesystem a partial map from paths to
file contents (lists of characters), and the script a pure function from
those to its printed output, returned SQL and exit status.

Part 2 models the Migration Application Engine of the specification
(Reader / Ledger / Planner / Executor / Runner); the engine itself is not
present in the repository's source, so those definitions are modelled from
the spec, as their doc comments state.
-/

namespace Script

/-- An environment: variable name to optional value (`os.environ.get`). -/
abbrev Env : Type := String → Option String

/-- A filesystem: path to optional file contents (characters of the file). -/
abbrev FileSys : Type := String → Option (List Char)

/-- `SUPABASE_URL = "https://hvqszwkacdfumdoeapti.supabase.co"`: a string
literal in the source; it does not consult the environment. -/
def SUPABASE_URL (_env : Env) : String :=
  "https://hvqszwkacdfumdoeapti.supabase.co"

/-- `SUPABASE_KEY = os.environ.get("SUPABASE_KEY")`. -/
def SUPABASE_KEY (env : Env) : Option String :=
  env "SUPABASE_KEY"

/-- `DB_PASSWORD = os.environ.get("SUPABASE_DB_PASSWORD")`. -/
def DB_PASSWORD (env : Env) : Option String :=
  env "SUPABASE_DB_PASSWORD"

/-- The migration file path, a string literal inside `run_migration`. -/
def migration_file : String :=
  "supabase/migrations/20251031012958_create_wellness_schema.sql"

/-- The 500-character preview slice `sql[:500]` (total, like Python slicing). -/
def preview500 (sql : List Char) : List Char :=
  sql.take 500

/-- The `"=" * 80` separator line. -/
def eqBar : String :=
  String.mk (List.replicate 80 '=')

/-- The lines `run_migration` prints once the file was read. -/
def outputLines (sql : List Char) : List String :=
  ["Migration file loaded: " ++ toString sql.length ++ " characters",
   "\nSQL Content Preview:",
   eqBar,
   String.mk (preview500 sql) ++ "...\n",
   "\nTo run this migration, use one of these options:",
   "1. Supabase Dashboard > SQL Editor > Paste the migration SQL",
   "2. Use Supabase CLI: supabase db push",
   "3. Use psql directly if you have database access"]

/-- `run_migration()`: if the hardcoded file is absent, print a message and
exit with status 1; otherwise read the file, print the loaded-size line, the
500-character preview and the instructions, and return the SQL text. -/
def run_migration (fs : FileSys) : Except (List String × Nat) (List String × List Char) :=
  match fs migration_file with
  | none => .error (["Migration file not found: " ++ migration_file], 1)
  | some sql => .ok (outputLines sql, sql)

/-- The `__main__` block: bind the two environment variables (module load),
call `run_migration`, print the final confirmation line, exit 0 on success. -/
def script_main (env : Env) (fs : FileSys) : List String × Nat :=
  let _key := SUPABASE_KEY env
  let _pwd := DB_PASSWORD env
  match run_migration fs with
  | .error (out, code) => (out, code)
  | .ok (out, _sql) => (out ++ ["\n✓ Migration file is ready to execute"], 0)

/-- A short sample file content for concrete evaluation. -/
def sqlShort : List Char := "SELECT 1;".data

/-- A filesystem holding exactly the hardcoded migration file. -/
def fsP1 : FileSys := fun p => if p = migration_file then some sqlShort else none

/-- A filesystem holding the hardcoded migration file plus an unrelated
migration directory with different content. -/
def fsP2 : FileSys := fun p =>
  if p = migration_file then some sqlShort
  else if p = "other_migrations/1_x.sql" then some "DROP TABLE a;".data
  else none

/-- An environment that sets SUPABASE_URL to a different endpoint. -/
def envU1 : Env := fun k => if k = "SUPABASE_URL" then some "https://other.example.org" else none

/-- The empty environment. -/
def envU2 : Env := fun _ => none

/-- An environment holding one pair of credentials. -/
def envK1 : Env := fun k =>
  if k = "SUPABASE_KEY" then some "key-one"
  else if k = "SUPABASE_DB_PASSWORD" then some "pw-one"
  else none

/-- An environment holding a different pair of credentials. -/
def envK2 : Env := fun k =>
  if k = "SUPABASE_KEY" then some "key-two"
  else if k = "SUPABASE_DB_PASSWORD" then some "pw-two"
  else none

end Script

namespace Engine

/-- Modelled from the spec: the database schema, abstracted as the list of
schema-changing statements that have been committed (the engine treats SQL
execution as opaque). -/
abbrev Schema : Type := List String

/-- Modelled from the spec (§3): a discovered migration file — identity
(sortable version token parsed from the filename), raw SQL text, source
path. Immutable once read. -/
structure MigrationFile where
  identity : Nat
  sql : String
  path : String
deriving DecidableEq, Repr

/-- Modelled from the spec (§3): a ledger row — identity, checksum of the
SQL text at apply time, applied-at timestamp. -/
structure LedgerEntry where
  identity : Nat
  checksum : Nat
  appliedAt : Nat
deriving DecidableEq, Repr

/-- Modelled from the spec (§4.1, §7): the Reader's error kinds. -/
inductive ReaderError where
  | MalformedIdentity (path : String)
  | DuplicateIdentity
  | UnreadableFile (path : String)
deriving DecidableEq, Repr

/-- Modelled from the spec (§3): per-migration outcome status. -/
inductive Status where
  | applied
  | failed
  | skipped
deriving DecidableEq, Repr

/-- Modelled from the spec (§3): per-migration ExecutionResult — identity,
status, error detail if failed. -/
structure ExecutionResult where
  identity : Nat
  status : Status
  error : Option String
deriving DecidableEq, Repr

/-- Modelled from the spec (§2, §4.2): the target database state — its
schema together with the migration Ledger's tracking table. -/
structure DBState where
  schema : Schema
  ledger : List LedgerEntry
deriving DecidableEq, Repr

/-- Modelled from the spec (§6): the opaque capability of executing one
migration's SQL text against a schema — success yields the new schema,
failure yields the database error message. -/
abbrev SqlExec : Type := String → Schema → Except String Schema

/-- Modelled from the spec (§4.1): a directory listing — filename paired
with its content, `none` when the file is unreadable. -/
abbrev DirListing : Type := List (String × Option String)

/-- Modelled from the spec (§4.1): parse the identity from the filename
part before the first underscore; `none` when that part is not a numeric
sortable token. -/
def parseIdentity (filename : String) : Option Nat :=
  match filename.data.takeWhile (fun c => c != '_') with
  | [] => none
  | ds =>
    if ds.all Char.isDigit then
      some (ds.foldl (fun a c => a * 10 + (c.toNat - 48)) 0)
    else
      none

/-- Modelled from the spec (§4.1): read every file of the directory,
parsing its identity; fails with `MalformedIdentity` on an unparsable
prefix and with `UnreadableFile` on an I/O error. -/
def readAll : DirListing → Except ReaderError (List MigrationFile)
  | [] => .ok []
  | (name, content) :: rest =>
    match parseIdentity name with
    | none => .error (.MalformedIdentity name)
    | some ident =>
      match content with
      | none => .error (.UnreadableFile name)
      | some sql =>
        match readAll rest with
        | .error e => .error e
        | .ok files => .ok (⟨ident, sql, name⟩ :: files)

/-- The ascending-identity order on migration files. -/
def migLE (a b : MigrationFile) : Prop := a.identity ≤ b.identity

instance : DecidableRel migLE := fun a b => Nat.decLe a.identity b.identity

instance : IsTotal MigrationFile migLE := ⟨fun a b => Nat.le_total a.identity b.identity⟩

instance : IsTrans MigrationFile migLE := ⟨fun _ _ _ hab hbc => Nat.le_trans hab hbc⟩

/-- Modelled from the spec (§4.1): `discover(directory)` — read all files,
fail with `DuplicateIdentity` if two files resolve to the same identity,
and return the entries sorted ascending by identity. -/
def discover (dir : DirListing) : Except ReaderError (List MigrationFile) :=
  match readAll dir with
  | .error e => .error e
  | .ok files =>
    if (files.map (·.identity)).Nodup then
      .ok (List.insertionSort migLE files)
    else
      .error .DuplicateIdentity

/-- Modelled from the spec (§4.4): the content hash recorded as a
LedgerEntry's checksum. -/
def checksum (sql : String) : Nat :=
  sql.data.foldl (fun a c => a * 31 + c.toNat) 7

/-- The identities present in the database's Ledger. -/
def ledgerIds (db : DBState) : List Nat :=
  db.ledger.map (·.identity)

/-- Modelled from the spec (§4.3): `plan(allMigrations, appliedIdentities)`
— pure set-difference by identity, preserving the order of
`allMigrations`. -/
def plan (all : List MigrationFile) (applied : List Nat) : List MigrationFile :=
  all.filter (fun m => decide (m.identity ∉ applied))

/-- Modelled from the spec (§4.4): `apply(migration, connection)` — one
transaction executing the migration's SQL; on success the LedgerEntry is
committed together with the schema change, on SQL error the whole
transaction rolls back and the database state is returned unchanged. -/
def apply (exec : SqlExec) (now : Nat) (m : MigrationFile) (db : DBState) :
    ExecutionResult × DBState :=
  match exec m.sql db.schema with
  | .error e => (⟨m.identity, .failed, some e⟩, db)
  | .ok s2 => (⟨m.identity, .applied, none⟩,
               ⟨s2, db.ledger ++ [⟨m.identity, checksum m.sql, now⟩]⟩)

/-- Modelled from the spec (§4.5): the Runner's execution loop — apply the
plan entries strictly in order, stopping at the first `failed` result
(fail-fast); later entries are never attempted. -/
def runPlan (exec : SqlExec) : Nat → List MigrationFile → DBState →
    List ExecutionResult × DBState
  | _, [], db => ([], db)
  | now, m :: rest, db =>
    match Engine.apply exec now m db with
    | (r, db2) =>
      match r.status with
      | .failed => ([r], db2)
      | _ => ((r :: (runPlan exec (now + 1) rest db2).1),
              (runPlan exec (now + 1) rest db2).2)

/-- Modelled from the spec (§2, §4.5): one Runner invocation — discover,
read the applied identities from the Ledger, plan, then execute the plan;
a Reader error is surfaced before any database interaction, leaving the
database untouched. -/
def run (exec : SqlExec) (dir : DirListing) (db : DBState) :
    Except ReaderError (List ExecutionResult) × DBState :=
  match discover dir with
  | .error e => (.error e, db)
  | .ok files =>
    (.ok (runPlan exec 0 (plan files (ledgerIds db)) db).1,
     (runPlan exec 0 (plan files (ledgerIds db)) db).2)

/-- Modelled from the spec (§6): the process exit status — 0 on full
success, nonzero when any entry failed or the run errored out. -/
def exitCode (outcome : Except ReaderError (List ExecutionResult)) : Nat :=
  match outcome with
  | .error _ => 1
  | .ok rs => if rs.countP (fun r => decide (r.status = .failed)) = 0 then 0 else 1

/-- Modelled from the spec (§6): the abstract CLI — a missing migration
directory or an unreachable database is a setup error with a nonzero exit;
otherwise the Runner's outcome determines the exit status. -/
def cli (exec : SqlExec) (dirOpt : Option DirListing) (connOpt : Option DBState) : Nat :=
  match dirOpt, connOpt with
  | none, _ => 1
  | some _, none => 1
  | some dir, some db => exitCode (run exec dir db).1

/-- Sample migration A, identity 1. -/
def sampleA : MigrationFile := ⟨1, "create table a", "1_a.sql"⟩

/-- Sample migration B, identity 2. -/
def sampleB : MigrationFile := ⟨2, "create table b", "2_b.sql"⟩

/-- Sample migration C, identity 3. -/
def sampleC : MigrationFile := ⟨3, "create table c", "3_c.sql"⟩

/-- A SQL capability on which every statement succeeds. -/
def okExec : SqlExec := fun sql s => .ok (s ++ [sql])

/-- A SQL capability on which migration B's SQL fails. -/
def failOnB : SqlExec := fun sql s =>
  if sql = "create table b" then .error "syntax error at b" else .ok (s ++ [sql])

/-- The empty database: no schema, empty Ledger. -/
def db0 : DBState := ⟨[], []⟩

/-- A two-file migration directory. -/
def sampleDir2 : DirListing :=
  [("1_a.sql", some "create table a"), ("2_b.sql", some "create table b")]

/-- The same two files listed in reverse name order. -/
def sampleDirRev : DirListing :=
  [("2_b.sql", some "create table b"), ("1_a.sql", some "create table a")]

/-- A directory whose two files share identity 1. -/
def dupDir : DirListing := [("1_a.sql", some "alpha"), ("1_b.sql", some "beta")]

/-- What `readAll` yields on `dupDir`. -/
def dupParsed : List MigrationFile := [⟨1, "alpha", "1_a.sql"⟩, ⟨1, "beta", "1_b.sql"⟩]

/-- The results of running `sampleDir2` against the empty database. -/
def rs1c : List ExecutionResult := [⟨1, .applied, none⟩, ⟨2, .applied, none⟩]

/-- The database state after running `sampleDir2` against the empty database. -/
def db1c : DBState :=
  ⟨["create table a", "create table b"],
   [⟨1, checksum "create table a", 0⟩, ⟨2, checksum "create table b", 1⟩]⟩

end Engine

namespace Script

/-- The empty filesystem: every path is missing. -/
def fsEmpty : FileSys := fun _ => none

end Script

namespace Script

/-- C7 counterexample: the database endpoint is a hardcoded literal — the
value of `SUPABASE_URL` is the same fixed URL under two environments that
disagree everywhere — and the migration path is likewise hardcoded:
`run_migration` behaves identically on two filesystems that agree only at
the hardcoded path. -/
theorem hardcoded_counterexample :
    SUPABASE_URL envU1 = SUPABASE_URL envU2
    ∧ SUPABASE_URL envU2 = "https://hvqszwkacdfumdoeapti.supabase.co"
    ∧ run_migration fsP1 = run_migration fsP2 :=
  ⟨rfl, rfl, rfl⟩

/-- C7 (amended): the credentials `SUPABASE_KEY` and `SUPABASE_DB_PASSWORD`
are read from the environment, but the database endpoint `SUPABASE_URL` is
a hardcoded literal independent of the environment, and the migration file
path is a hardcoded constant: `run_migration` consults the filesystem only
at `migration_file`. -/
theorem config_amended (env env2 : Env) (fs fs2 : FileSys)
    (h : fs migration_file = fs2 migration_file) :
    SUPABASE_KEY env = env "SUPABASE_KEY"
    ∧ DB_PASSWORD env = env "SUPABASE_DB_PASSWORD"
    ∧ SUPABASE_URL env = SUPABASE_URL env2
    ∧ run_migration fs = run_migration fs2 := by
  refine ⟨rfl, rfl, rfl, ?_⟩
  unfold run_migration
  rw [h]

/-- C7 witness: the amended claim evaluated at concrete environments and
filesystems. -/
theorem config_amended_witness :
    SUPABASE_KEY envU1 = envU1 "SUPABASE_KEY"
    ∧ DB_PASSWORD envU1 = envU1 "SUPABASE_DB_PASSWORD"
    ∧ SUPABASE_URL envU1 = SUPABASE_URL envU2
    ∧ run_migration fsP1 = run_migration fsP2 :=
  config_amended envU1 envU2 fsP1 fsP2 rfl

/-- C9: the script's observable behaviour (printed lines and exit status)
is identical for any two environments that differ only in the values of
`SUPABASE_KEY` and `SUPABASE_DB_PASSWORD`: the two variables are read at
module load but never influence any later computation or output
(`run_migration` does not even take the environment). -/
theorem env_noninterference (env1 env2 : Env) (fs : FileSys)
    (_h : ∀ k, k ≠ "SUPABASE_KEY" → k ≠ "SUPABASE_DB_PASSWORD" → env1 k = env2 k) :
    script_main env1 fs = script_main env2 fs :=
  rfl

/-- C9 witness: two environments with different credentials produce the
same observable behaviour on a concrete filesystem. -/
theorem env_noninterference_witness :
    script_main envK1 fsP1 = script_main envK2 fsP1 :=
  env_noninterference envK1 envK2 fsP1 (by
    intro k h1 h2
    simp [envK1, envK2, h1, h2])

/-- C10: when the hardcoded migration file exists, `run_migration` returns
its complete content verbatim as its value, printing exactly the loaded
lines; and the 500-character preview is total — its length is
`min 500 (length of the content)`, well-defined also when the content is
shorter than 500 characters. -/
theorem run_migration_verbatim (fs : FileSys) (sql : List Char)
    (h : fs migration_file = some sql) :
    run_migration fs = .ok (outputLines sql, sql)
    ∧ (preview500 sql).length = min 500 sql.length := by
  constructor
  · unfold run_migration
    rw [h]
  · simp [preview500]

/-- C10 witness: a concrete 9-character file is returned verbatim and its
preview length is `min 500 9 = 9`. -/
theorem run_migration_verbatim_witness :
    run_migration fsP1 = .ok (outputLines sqlShort, sqlShort)
    ∧ (preview500 sqlShort).length = min 500 sqlShort.length :=
  run_migration_verbatim fsP1 sqlShort rfl

end Script

namespace Engine

/-- C1: `apply` is atomic — either the migration is fully applied (status
`applied`, the SQL succeeded producing the new schema, and the LedgerEntry
is committed together with it), or it failed and the returned database
state is exactly the input state: the schema is unchanged and no
LedgerEntry was added for the migration. No partial state is observable. -/
theorem apply_atomic (exec : SqlExec) (now : Nat) (m : MigrationFile) (db : DBState) :
    ((Engine.apply exec now m db).1.status = .applied
      ∧ (Engine.apply exec now m db).2.ledger = db.ledger ++ [⟨m.identity, checksum m.sql, now⟩]
      ∧ exec m.sql db.schema = .ok (Engine.apply exec now m db).2.schema)
    ∨ ((Engine.apply exec now m db).1.status = .failed
      ∧ (Engine.apply exec now m db).2 = db) := by
  cases h : exec m.sql db.schema <;> simp [Engine.apply, h]

/-- C5: `plan` is the pure set-difference by identity — a migration is in
the plan exactly when it is among all migrations and its identity is not in
the applied set — it preserves the order of `allMigrations` (the plan is a
sublist), and on A(id=1), B(id=2), C(id=3) with a ledger containing only
identity 1 the plan is exactly [B, C]. -/
theorem plan_spec (all : List MigrationFile) (applied : List Nat) (m : MigrationFile) :
    (m ∈ plan all applied ↔ m ∈ all ∧ m.identity ∉ applied)
    ∧ (plan all applied).Sublist all
    ∧ plan [sampleA, sampleB, sampleC] [1] = [sampleB, sampleC] := by
  refine ⟨?_, List.filter_sublist all, rfl⟩
  simp [plan]

/-- C5 witness: membership in the concrete plan [B, C], through the
set-difference characterization. -/
theorem plan_spec_witness :
    sampleB ∈ plan [sampleA, sampleB, sampleC] [1] :=
  (plan_spec [sampleA, sampleB, sampleC] [1] sampleB).1.mpr (by decide)

/-- C8: if two migration files resolve to the same identity, `discover`
fails with `DuplicateIdentity`; the failure happens before any database
interaction — a full `run` on such a directory surfaces the error and
returns the database state untouched. -/
theorem discover_duplicate (dir : DirListing) (parsed : List MigrationFile)
    (exec : SqlExec) (db : DBState)
    (h : readAll dir = .ok parsed)
    (hdup : ¬ (parsed.map (·.identity)).Nodup) :
    discover dir = .error .DuplicateIdentity
    ∧ run exec dir db = (.error .DuplicateIdentity, db) := by
  have hd : discover dir = .error .DuplicateIdentity := by
    simp [discover, h, hdup]
  refine ⟨hd, ?_⟩
  unfold run
  rw [hd]

/-- C8 witness: a concrete directory with two identity-1 files. -/
theorem discover_duplicate_witness :
    discover dupDir = .error .DuplicateIdentity
    ∧ run okExec dupDir db0 = (.error .DuplicateIdentity, db0) :=
  discover_duplicate dupDir dupParsed okExec db0 rfl (by decide)

/-- C2: the Runner is fail-fast. The identities of the produced results are
an initial segment of the plan's identities, no result before the last one
is `failed`, and either every plan entry was attempted or the last produced
result is the `failed` one — so once an entry fails, no later plan entry is
ever attempted. -/
theorem runPlan_failFast (exec : SqlExec) (now : Nat) (p : List MigrationFile)
    (db : DBState) (rs : List ExecutionResult) (db2 : DBState)
    (h : runPlan exec now p db = (rs, db2)) :
    rs.map (·.identity) = (p.map (·.identity)).take rs.length
    ∧ rs.dropLast.countP (fun r => decide (r.status = .failed)) = 0
    ∧ (rs.length = p.length ∨ rs.getLast?.map (·.status) = some .failed) := by
  induction p generalizing now db rs db2 with
  | nil =>
    simp only [runPlan] at h
    injection h with h1 h2
    subst h1
    simp
  | cons m rest ih =>
    cases hx : exec m.sql db.schema with
    | error e =>
      simp only [runPlan, Engine.apply, hx] at h
      injection h with h1 h2
      subst h1
      refine ⟨by simp, by simp, Or.inr ?_⟩
      simp
    | ok s2 =>
      simp only [runPlan, Engine.apply, hx] at h
      injection h with h1 h2
      subst h1
      have ihh := ih (now + 1) ⟨s2, db.ledger ++ [⟨m.identity, checksum m.sql, now⟩]⟩
        (runPlan exec (now + 1) rest ⟨s2, db.ledger ++ [⟨m.identity, checksum m.sql, now⟩]⟩).1
        (runPlan exec (now + 1) rest ⟨s2, db.ledger ++ [⟨m.identity, checksum m.sql, now⟩]⟩).2
        rfl
      refine ⟨?_, ?_, ?_⟩
      · simpa using ihh.1
      · cases htl : (runPlan exec (now + 1) rest
            ⟨s2, db.ledger ++ [⟨m.identity, checksum m.sql, now⟩]⟩).1 with
        | nil => simp
        | cons x xs =>
          have h2 := ihh.2.1
          rw [htl] at h2
          simp [List.dropLast_cons₂, List.countP_cons, h2]
      · rcases ihh.2.2 with hlen | hlast
        · exact Or.inl (by simp [hlen])
        · cases htl : (runPlan exec (now + 1) rest
              ⟨s2, db.ledger ++ [⟨m.identity, checksum m.sql, now⟩]⟩).1 with
          | nil =>
            rw [htl] at hlast
            simp at hlast
          | cons x xs =>
            rw [htl] at hlast
            exact Or.inr (by simpa [List.getLast?_cons_cons] using hlast)

/-- C2 witness: on the plan [B, C] against a database where B's SQL fails,
the Runner produces exactly one result — B failed — and C is never
attempted: the report's identities are the one-element initial segment of
the plan's. -/
theorem runPlan_failFast_witness :
    ([⟨2, .failed, some "syntax error at b"⟩] :
        List ExecutionResult).map (·.identity) =
      (([sampleB, sampleC]).map (·.identity)).take 1
    ∧ ([⟨2, .failed, some "syntax error at b"⟩] :
        List ExecutionResult).dropLast.countP (fun r => decide (r.status = .failed)) = 0
    ∧ (([⟨2, .failed, some "syntax error at b"⟩] : List ExecutionResult).length =
          ([sampleB, sampleC]).length
        ∨ ([⟨2, .failed, some "syntax error at b"⟩] :
            List ExecutionResult).getLast?.map (·.status) = some .failed) :=
  runPlan_failFast failOnB 0 [sampleB, sampleC] db0
    [⟨2, .failed, some "syntax error at b"⟩] db0 rfl

/-- C3: a successful `discover` returns the migration files sorted strictly
ascending by identity — pairwise increasing, hence with no duplicate
identities. -/
theorem discover_sorted (dir : DirListing) (files : List MigrationFile)
    (h : discover dir = .ok files) :
    files.Pairwise (fun a b => a.identity < b.identity) := by
  cases hr : readAll dir with
  | error e =>
    simp [discover, hr] at h
  | ok parsed =>
    by_cases hnd : (parsed.map (·.identity)).Nodup
    · simp only [discover, hr, if_pos hnd, Except.ok.injEq] at h
      have hperm : (List.insertionSort migLE parsed).Perm parsed :=
        List.perm_insertionSort migLE parsed
      have hsort : List.Sorted migLE (List.insertionSort migLE parsed) :=
        List.sorted_insertionSort migLE parsed
      have hnd2 : ((List.insertionSort migLE parsed).map (·.identity)).Nodup :=
        ((hperm.map (·.identity)).symm).nodup hnd
      have hne : (List.insertionSort migLE parsed).Pairwise
          (fun a b => a.identity ≠ b.identity) := List.pairwise_map.mp hnd2
      exact h ▸ ((hsort.and hne).imp fun hab => Nat.lt_of_le_of_ne hab.1 hab.2)
    · simp [discover, hr, hnd] at h

/-- C3 witness: on a directory listed in reverse name order, `discover`
sorts the two files into strictly ascending identity order. -/
theorem discover_sorted_witness :
    ([sampleA, sampleB]).Pairwise (fun a b => a.identity < b.identity) :=
  discover_sorted sampleDirRev [sampleA, sampleB] rfl

/-- The Ledger is append-only along a run: `runPlan` only ever appends
entries to the input ledger. -/
theorem runPlan_ledger_ext (exec : SqlExec) (p : List MigrationFile) :
    ∀ (now : Nat) (db : DBState),
    ∃ ext, ((runPlan exec now p db).2).ledger = db.ledger ++ ext := by
  induction p with
  | nil =>
    intro now db
    exact ⟨[], by simp [runPlan]⟩
  | cons m rest ih =>
    intro now db
    cases hx : exec m.sql db.schema with
    | error e =>
      exact ⟨[], by simp [runPlan, Engine.apply, hx]⟩
    | ok s2 =>
      obtain ⟨ext, hext⟩ :=
        ih (now + 1) ⟨s2, db.ledger ++ [⟨m.identity, checksum m.sql, now⟩]⟩
      refine ⟨⟨m.identity, checksum m.sql, now⟩ :: ext, ?_⟩
      simp only [runPlan, Engine.apply, hx]
      rw [hext]
      simp

/-- An identity present in the Ledger is still present after `runPlan`. -/
theorem ledgerIds_runPlan_mono (exec : SqlExec) (p : List MigrationFile)
    (now : Nat) (db : DBState) (x : Nat) (hx : x ∈ ledgerIds db) :
    x ∈ ledgerIds ((runPlan exec now p db).2) := by
  obtain ⟨ext, hext⟩ := runPlan_ledger_ext exec p now db
  simp only [ledgerIds, hext, List.map_append, List.mem_append]
  exact Or.inl hx

/-- If no entry of `p` is recorded in `L`, the plan keeps all of `p`. -/
theorem plan_eq_self (p : List MigrationFile) (L : List Nat)
    (h : ∀ m ∈ p, m.identity ∉ L) : plan p L = p :=
  List.filter_eq_self.mpr fun m hm => by simp [h m hm]

/-- Planning against a larger Ledger factors through planning against a
smaller one. -/
theorem plan_plan (files : List MigrationFile) (L L2 : List Nat)
    (hsub : ∀ x, x ∈ L → x ∈ L2) :
    plan (plan files L) L2 = plan files L2 := by
  unfold plan
  rw [List.filter_filter]
  apply List.filter_congr
  intro m _
  by_cases hx : m.identity ∈ L2
  · simp [hx]
  · have hL : m.identity ∉ L := fun hin => hx (hsub _ hin)
    simp [hx, hL]

/-- A successful `discover` yields pairwise-distinct identities. -/
theorem discover_ids_nodup (dir : DirListing) (files : List MigrationFile)
    (h : discover dir = .ok files) : (files.map (·.identity)).Nodup := by
  cases hr : readAll dir with
  | error e => simp [discover, hr] at h
  | ok parsed =>
    by_cases hnd : (parsed.map (·.identity)).Nodup
    · simp only [discover, hr, if_pos hnd, Except.ok.injEq] at h
      exact h ▸ (((List.perm_insertionSort migLE parsed).map (·.identity)).symm).nodup hnd
    · simp [discover, hr, hnd] at h

/-- Re-running a plan whose first run already happened applies nothing: the
entries recorded by the first run are planned away, a still-failing head
fails again immediately, and the database state is returned unchanged. -/
theorem runPlan_reapply (exec : SqlExec) (p : List MigrationFile) :
    ∀ (now now2 : Nat) (db : DBState),
    (p.map (·.identity)).Nodup →
    (∀ m ∈ p, m.identity ∉ ledgerIds db) →
    (runPlan exec now2 (plan p (ledgerIds ((runPlan exec now p db).2)))
        ((runPlan exec now p db).2)).2 = (runPlan exec now p db).2
    ∧ (runPlan exec now2 (plan p (ledgerIds ((runPlan exec now p db).2)))
        ((runPlan exec now p db).2)).1.countP
        (fun r => decide (r.status = .applied)) = 0 := by
  induction p with
  | nil =>
    intro now now2 db _ _
    simp [runPlan, plan]
  | cons m rest ih =>
    intro now now2 db hnd hnotin
    cases hx : exec m.sql db.schema with
    | error e =>
      simp only [runPlan, Engine.apply, hx]
      rw [plan_eq_self _ _ hnotin]
      simp only [runPlan, Engine.apply, hx]
      simp
    | ok s2 =>
      simp only [runPlan, Engine.apply, hx]
      have hmemdb : m.identity ∈
          ledgerIds (⟨s2, db.ledger ++ [⟨m.identity, checksum m.sql, now⟩]⟩ : DBState) := by
        simp [ledgerIds]
      have hmem : m.identity ∈ ledgerIds ((runPlan exec (now + 1) rest
          ⟨s2, db.ledger ++ [⟨m.identity, checksum m.sql, now⟩]⟩).2) :=
        ledgerIds_runPlan_mono exec rest (now + 1) _ _ hmemdb
      have hplan : plan (m :: rest) (ledgerIds ((runPlan exec (now + 1) rest
            ⟨s2, db.ledger ++ [⟨m.identity, checksum m.sql, now⟩]⟩).2))
          = plan rest (ledgerIds ((runPlan exec (now + 1) rest
            ⟨s2, db.ledger ++ [⟨m.identity, checksum m.sql, now⟩]⟩).2)) := by
        simp [plan, List.filter_cons, hmem]
      rw [hplan]
      have hnd' : (rest.map (·.identity)).Nodup := by
        simp only [List.map_cons, List.nodup_cons] at hnd
        exact hnd.2
      have hnotin' : ∀ m' ∈ rest, m'.identity ∉
          ledgerIds (⟨s2, db.ledger ++ [⟨m.identity, checksum m.sql, now⟩]⟩ : DBState) := by
        intro m' hm' hc
        have h1 : m'.identity ∉ ledgerIds db := hnotin m' (List.mem_cons_of_mem _ hm')
        have h2 : m'.identity ≠ m.identity := by
          simp only [List.map_cons, List.nodup_cons] at hnd
          intro heq
          exact hnd.1 (heq ▸ List.mem_map_of_mem _ hm')
        simp only [ledgerIds, List.map_append, List.mem_append] at hc
        rcases hc with hc | hc
        · exact h1 hc
        · simp at hc
          exact h2 hc
      exact ih (now + 1) now2 _ hnd' hnotin'

/-- C4: running the Runner twice in succession against the same database
and directory applies zero migrations on the second run, and the second run
leaves the database state untouched: every migration whose LedgerEntry
exists is planned away and never re-applied, and a migration that failed
deterministically fails again without any new LedgerEntry. -/
theorem run_idempotent (exec : SqlExec) (dir : DirListing) (db : DBState)
    (rs1 rs2 : List ExecutionResult) (db1 db2 : DBState)
    (h1 : run exec dir db = (.ok rs1, db1))
    (h2 : run exec dir db1 = (.ok rs2, db2)) :
    db2 = db1 ∧ rs2.countP (fun r => decide (r.status = .applied)) = 0 := by
  cases hd : discover dir with
  | error e =>
    simp [run, hd] at h1
  | ok files =>
    simp only [run, hd, Prod.mk.injEq, Except.ok.injEq] at h1 h2
    obtain ⟨hrs1, hdb1⟩ := h1
    obtain ⟨hrs2, hdb2⟩ := h2
    have hsub : ∀ x, x ∈ ledgerIds db → x ∈ ledgerIds db1 := by
      intro x hx
      have hmono := ledgerIds_runPlan_mono exec (plan files (ledgerIds db)) 0 db x hx
      rw [hdb1] at hmono
      exact hmono
    have hplan2 : plan files (ledgerIds db1)
        = plan (plan files (ledgerIds db)) (ledgerIds db1) :=
      (plan_plan files _ _ hsub).symm
    have hnodfiles : (files.map (·.identity)).Nodup := discover_ids_nodup dir files hd
    have hnodp1 : ((plan files (ledgerIds db)).map (·.identity)).Nodup :=
      List.Nodup.sublist (List.Sublist.map _ (List.filter_sublist files)) hnodfiles
    have hnotin1 : ∀ m ∈ plan files (ledgerIds db), m.identity ∉ ledgerIds db := by
      intro m hm
      simp only [plan, List.mem_filter, decide_eq_true_eq] at hm
      exact hm.2
    have core := runPlan_reapply exec (plan files (ledgerIds db)) 0 0 db hnodp1 hnotin1
    rw [hdb1] at core
    rw [← hplan2] at core
    constructor
    · rw [← hdb2]
      exact core.1
    · rw [← hrs2]
      exact core.2

/-- C4 witness: the two-file directory run against the empty database, then
again against the resulting state — the second run produces no results and
leaves the state unchanged. -/
theorem run_idempotent_witness :
    db1c = db1c
    ∧ ([] : List ExecutionResult).countP (fun r => decide (r.status = .applied)) = 0 :=
  run_idempotent okExec sampleDir2 db0 rs1c [] db1c db1c rfl rfl

/-- C6: exit status. A missing migration directory or an unreachable
database is a setup error with a nonzero exit; a run that errors before
executing exits nonzero; otherwise the exit status is 0 exactly when no
result is `failed`. In the prototype script itself, a present migration
file exits 0 and a missing one exits 1. -/
theorem exit_status (exec : SqlExec) (dir : DirListing) (db : DBState)
    (rs : List ExecutionResult) (e : ReaderError)
    (env : Script.Env) (fs : Script.FileSys) (c : List Char) :
    cli exec none (some db) ≠ 0
    ∧ cli exec (some dir) none ≠ 0
    ∧ ((run exec dir db).1 = .error e → cli exec (some dir) (some db) ≠ 0)
    ∧ ((run exec dir db).1 = .ok rs →
        (cli exec (some dir) (some db) = 0
          ↔ rs.countP (fun r => decide (r.status = .failed)) = 0))
    ∧ (fs Script.migration_file = some c → (Script.script_main env fs).2 = 0)
    ∧ (fs Script.migration_file = none → (Script.script_main env fs).2 = 1) := by
  refine ⟨by simp [cli], by simp [cli], ?_, ?_, ?_, ?_⟩
  · intro h
    simp [cli, exitCode, h]
  · intro h
    simp only [cli, exitCode, h]
    by_cases hc : rs.countP (fun r => decide (r.status = .failed)) = 0
    · simp [hc]
    · simp [hc]
  · intro h
    simp [Script.script_main, Script.run_migration, h]
  · intro h
    simp [Script.script_main, Script.run_migration, h]

/-- C6 witness: concrete exit statuses — both setup errors exit 1, a
duplicate-identity run exits nonzero, a fully successful run exits 0, and
the prototype script exits 0 with the file present and 1 with it absent. -/
theorem exit_status_witness :
    cli okExec none (some db0) ≠ 0
    ∧ cli okExec (some sampleDir2) none ≠ 0
    ∧ cli okExec (some dupDir) (some db0) ≠ 0
    ∧ cli okExec (some sampleDir2) (some db0) = 0
    ∧ (Script.script_main Script.envK1 Script.fsP1).2 = 0
    ∧ (Script.script_main Script.envK1 Script.fsEmpty).2 = 1 :=
  ⟨(exit_status okExec sampleDir2 db0 rs1c .DuplicateIdentity
      Script.envK1 Script.fsP1 Script.sqlShort).1,
   (exit_status okExec sampleDir2 db0 rs1c .DuplicateIdentity
      Script.envK1 Script.fsP1 Script.sqlShort).2.1,
   (exit_status okExec dupDir db0 rs1c .DuplicateIdentity
      Script.envK1 Script.fsP1 Script.sqlShort).2.2.1 rfl,
   ((exit_status okExec sampleDir2 db0 rs1c .DuplicateIdentity
      Script.envK1 Script.fsP1 Script.sqlShort).2.2.2.1 rfl).mpr rfl,
   (exit_status okExec sampleDir2 db0 rs1c .DuplicateIdentity
      Script.envK1 Script.fsP1 Script.sqlShort).2.2.2.2.1 rfl,
   (exit_status okExec sampleDir2 db0 rs1c .DuplicateIdentity
      Script.envK1 Script.fsEmpty Script.sqlShort).2.2.2.2.2 rfl⟩

end Engine
